import Mathlib

/-!
# Script management front end (`src/perl/perl-fe.c`)

A shallow embedding of the `/SCRIPT` sub-commands and the two completion
handlers of `perl-fe.c`, with state passed explicitly.

Conventions of the embedding:

* a C string is the list of its characters before the terminating NUL, so
  `*s == '\0'` reads `s = []` and `strlen` is the length of the list;
* `GSList *perl_scripts` and `GList *` are Lean lists, `NULL` being `[]`;
* a nullable `char *` field is an `Option`;
* `printformat` appends one message to `State.out`.

The functions of `perl-core.c` and of the host (`commands.c`,
`completion.c`) that `perl-fe.c` calls are parameters of the embedded
functions (`PerlCore`, `Host`). A second set of definitions, in namespace
`Core`, gives the contract those functions have in the design document.
-/

namespace PerlFe

/-- A C string: the `char`s before the terminating NUL. -/
abbrev CString := List Char

/-- An interpreter handle, never inspected by the front end. -/
abbrev Handle := Nat

/-- Modelled from the spec: the record type `PERL_SCRIPT_REC` is declared in
`perl-core.h`; the fields are those of the ScriptRecord of the data model
(`name`, optional `path`, `sourceText`, `interpreterHandle`). `perl-fe.c`
reads `name`, `path` (tested against `NULL`) and `data`. -/
structure PERL_SCRIPT_REC where
  name : CString
  path : Option CString
  data : CString
  handle : Handle
deriving DecidableEq, Repr

/-- The message formats of `module-formats.h` that `perl-fe.c` prints, each
with the arguments handed to `printformat`. -/
inductive Msg where
  | TXT_SCRIPT_NOT_FOUND (data : CString)
  | TXT_SCRIPT_NOT_LOADED (data : CString)
  | TXT_SCRIPT_LOADED (name : CString) (path : Option CString)
  | TXT_SCRIPT_UNLOADED (name : CString)
  | TXT_NO_SCRIPTS_LOADED
  | TXT_SCRIPT_LIST_HEADER
  | TXT_SCRIPT_LIST_LINE (name : CString) (descr : CString)
  | TXT_SCRIPT_LIST_FOOTER
deriving DecidableEq, Repr

/-- Command error codes of `commands.h` used here. -/
inductive CmdError where
  | CMDERR_NOT_ENOUGH_PARAMS
deriving DecidableEq, Repr

/-- What the interpreter is asked to compile: a file or inline text. -/
inductive Source where
  | file (path : CString)
  | text (code : CString)
deriving DecidableEq, Repr

/-- One call made to the interpreter collaborator. -/
inductive InterpCall where
  | compileAndRun (src : Source)
  | release (h : Handle)
deriving DecidableEq, Repr

/-- Events of the notification channel (signals). -/
inductive Event where
  | ScriptLoaded (name : CString) (path : Option CString)
  | ScriptUnloaded (name : CString)
  | ScriptLoadError (name : CString) (message : CString)
  | CommandError (e : CmdError)
deriving DecidableEq, Repr

/-- One read access made by a completion handler: a scan of the registry or
a directory listing for a word. -/
inductive Scan where
  | registry
  | directory (dir : CString) (word : CString)
deriving DecidableEq, Repr

/-- The process state the front end works on: the global `perl_scripts`
list, the messages printed so far, the signals emitted so far, the calls
made to the interpreter so far, and the scans made so far. -/
structure State where
  perl_scripts : List PERL_SCRIPT_REC
  out : List Msg
  events : List Event
  calls : List InterpCall
  scans : List Scan
deriving DecidableEq, Repr

/-- The functions of `perl-core.c` called by `perl-fe.c`. -/
structure PerlCore where
  perl_script_load_data : State → CString → Option PERL_SCRIPT_REC × State
  perl_script_load_file : State → CString → Option PERL_SCRIPT_REC × State
  perl_script_unload : State → PERL_SCRIPT_REC → State
  perl_script_find : State → CString → Option PERL_SCRIPT_REC
  perl_script_get_path : CString → Option CString
  perl_scripts_deinit : State → State
  perl_scripts_init : State → State

/-- The host functions and constants used by `perl-fe.c`: the parameter
parser for `script exec` (one parameter plus options; `none` when parsing
fails), `filename_complete`, `get_irssi_dir()` and `SCRIPTDIR`. -/
structure Host where
  cmd_get_params : CString → Option (List (CString × CString) × CString)
  filename_complete : CString → CString → List CString
  get_irssi_dir : CString
  SCRIPTDIR : CString

/-- Append one message, as `printformat` does. -/
def printformat (st : State) (m : Msg) : State :=
  { st with out := st.out ++ [m] }

/-- Modelled from the spec: `cmd_param_error` is defined in `commands.h`; an
input error is surfaced immediately and the operation is aborted before any
state change, so the caller returns with the state this function yields. -/
def cmd_param_error (st : State) (e : CmdError) : State :=
  { st with events := st.events ++ [Event.CommandError e] }

/-- The option name looked up by `cmd_script_exec`. -/
def optPermanent : CString := "permanent".toList

/-- Embedding of `cmd_script_exec`. -/
def cmd_script_exec (host : Host) (core : PerlCore) (st : State) (data : CString) : State :=
  match host.cmd_get_params data with
  | none => st
  | some (optlist, code) =>
    if code = [] then
      cmd_param_error st CmdError.CMDERR_NOT_ENOUGH_PARAMS
    else
      match core.perl_script_load_data st code with
      | (some script, st1) =>
        if optlist.lookup optPermanent = none then
          -- not a permanent script, unload immediately
          core.perl_script_unload st1 script
        else st1
      | (none, st1) => st1

/-- Embedding of `cmd_script_load`. -/
def cmd_script_load (core : PerlCore) (st : State) (data : CString) : State :=
  match core.perl_script_get_path data with
  | none => printformat st (Msg.TXT_SCRIPT_NOT_FOUND data)
  | some fname =>
    match core.perl_script_load_file st fname with
    | (some script, st1) => printformat st1 (Msg.TXT_SCRIPT_LOADED script.name script.path)
    | (none, st1) => st1

/-- Embedding of `cmd_script_unload`. -/
def cmd_script_unload (core : PerlCore) (st : State) (data : CString) : State :=
  match core.perl_script_find st data with
  | none => printformat st (Msg.TXT_SCRIPT_NOT_LOADED data)
  | some script =>
    core.perl_script_unload (printformat st (Msg.TXT_SCRIPT_UNLOADED script.name)) script

/-- Embedding of `cmd_script_flush`. -/
def cmd_script_flush (core : PerlCore) (st : State) : State :=
  core.perl_scripts_init (core.perl_scripts_deinit st)

/-- The ellipsis appended to a truncated source text. -/
def ellipsis : CString := " ...".toList

/-- The body of the loop of `cmd_script_list`: the contents of the `GString`
after the assignment for record `rec`. -/
def listDescr (rec : PERL_SCRIPT_REC) : CString :=
  match rec.path with
  | some path => path
  | none =>
    let data := rec.data
    if data.length > 50 then data.take 50 ++ ellipsis else data

/-- Embedding of `cmd_script_list`. -/
def cmd_script_list (st : State) : State :=
  if st.perl_scripts = [] then
    printformat st Msg.TXT_NO_SCRIPTS_LOADED
  else
    let st1 := printformat st Msg.TXT_SCRIPT_LIST_HEADER
    let st2 := st.perl_scripts.foldl
      (fun s rec => printformat s (Msg.TXT_SCRIPT_LIST_LINE rec.name (listDescr rec))) st1
    printformat st2 Msg.TXT_SCRIPT_LIST_FOOTER

/-- The C library `strlen`. -/
def strlen (s : CString) : Nat := s.length

/-- The C library `strncmp`: compares at most `n` characters, the end of a
list standing for the terminating NUL; the result is negative, zero or
positive. -/
def strncmp : CString → CString → Nat → Int
  | _, _, 0 => 0
  | [], [], _ + 1 => 0
  | [], _ :: _, _ + 1 => -1
  | _ :: _, [], _ + 1 => 1
  | c1 :: s1, c2 :: s2, n + 1 =>
    if c1 = c2 then strncmp s1 s2 n
    else if c1.toNat < c2.toNat then -1 else 1

/-- Conversion of a `size_t` value to `int`: the low 32 bits, read in two's
complement. -/
def toInt (n : Nat) : Int :=
  if n % 2 ^ 32 < 2 ^ 31 then ((n % 2 ^ 32 : Nat) : Int)
  else ((n % 2 ^ 32 : Nat) : Int) - 2 ^ 32

/-- Conversion of an `int` to `size_t` (64 bits): the value modulo `2 ^ 64`. -/
def toSizeT (i : Int) : Nat := (i % 2 ^ 64).toNat

/-- Embedding of `script_complete`: the list built, and the state after the
scan. `len` is an `int` that receives the `size_t` result of `strlen`, and is
converted back to `size_t` when handed to `strncmp`. `g_list_append` adds at
the end of the list. -/
def script_complete (st : State) (name : CString) : List CString × State :=
  let len : Int := toInt (strlen name)
  let list := st.perl_scripts.foldl
    (fun list rec =>
      if strncmp rec.name name (toSizeT len) = 0 then list ++ [rec.name] else list) []
  (list, { st with scans := st.scans ++ [Scan.registry] })

/-- The variables a completion handler works on: `*list`, `*want_space`, and
whether `signal_stop()` was called. -/
structure Completion where
  list : List CString
  want_space : Bool
  stopped : Bool
deriving DecidableEq, Repr

/-- Embedding of `sig_complete_load`. -/
def sig_complete_load (host : Host) (st : State) (c : Completion)
    (word line : CString) : Completion × State :=
  if line ≠ [] then (c, st)
  else
    let user_dir := host.get_irssi_dir ++ "/scripts".toList
    let list1 := host.filename_complete word user_dir
    let list2 := list1 ++ host.filename_complete word host.SCRIPTDIR
    let st1 := { st with scans := st.scans ++
      [Scan.directory user_dir word, Scan.directory host.SCRIPTDIR word] }
    if list2 ≠ [] then
      ({ list := list2, want_space := false, stopped := true }, st1)
    else ({ c with list := list2 }, st1)

/-- Embedding of `sig_complete_unload`. -/
def sig_complete_unload (st : State) (c : Completion)
    (word line : CString) : Completion × State :=
  if line ≠ [] then (c, st)
  else
    let (list, st1) := script_complete st word
    if list ≠ [] then ({ c with list := list, stopped := true }, st1)
    else ({ c with list := list }, st1)

/-! ## The contract of `perl-core.c` -/

namespace Core

/-- Modelled from the spec: the external collaborators of the lifecycle
manager, none of which is part of `perl-fe.c`. `compileAndRun` is the
interpreter capability (its outcome may depend on the calls made before);
`synthName` synthesizes the name of an inline script from the registry;
`nameOfPath` derives a script name from a file name; `probe dir name` looks
in one directory for the file of a bare name; `userDir` and `systemDir` are
the two configured roots. -/
structure Env where
  compileAndRun : List InterpCall → Source → Except CString Handle
  synthName : List PERL_SCRIPT_REC → CString
  nameOfPath : CString → CString
  probe : CString → CString → Option CString
  userDir : CString
  systemDir : CString

/-- Modelled from the spec: `Registry.find(name)`, an exact match on the
name, the registry being searched in insertion order. -/
def find (reg : List PERL_SCRIPT_REC) (name : CString) : Option PERL_SCRIPT_REC :=
  reg.find? (fun r => decide (r.name = name))

/-- Modelled from the spec: `Registry.register(record)`, which fails
(`none`, DuplicateName) when the name is already present and otherwise
appends the record to the ordered collection. -/
def register (reg : List PERL_SCRIPT_REC) (rec : PERL_SCRIPT_REC) :
    Option (List PERL_SCRIPT_REC) :=
  match find reg rec.name with
  | some _ => none
  | none => some (reg ++ [rec])

/-- Modelled from the spec: `Registry.unregister(name)`, which removes the
record of that name. -/
def unregister (reg : List PERL_SCRIPT_REC) (name : CString) : List PERL_SCRIPT_REC :=
  reg.eraseP (fun r => decide (r.name = name))

/-- Modelled from the spec: `perl_script_find` of `perl-core.c`, the
registry lookup by exact name. -/
def perl_script_find (st : State) (name : CString) : Option PERL_SCRIPT_REC :=
  find st.perl_scripts name

/-- Modelled from the spec: `perl_script_unload` of `perl-core.c`, the part
of `unload` that follows a successful lookup: instruct the interpreter to
release the handle, unregister the record, emit an unload notification. -/
def perl_script_unload (st : State) (script : PERL_SCRIPT_REC) : State :=
  { st with
    calls := st.calls ++ [InterpCall.release script.handle],
    perl_scripts := unregister st.perl_scripts script.name,
    events := st.events ++ [Event.ScriptUnloaded script.name] }

/-- Modelled from the spec: `perl_script_load_data` of `perl-core.c`, the
load step of `loadFromText` without a supplied name: synthesize a name,
invoke the interpreter on the text, on success register a record with the
text set and no path, on failure register nothing and emit a load-error
notification. A DuplicateName from `register` leaves the registry as it
was. -/
def perl_script_load_data (env : Env) (st : State) (data : CString) :
    Option PERL_SCRIPT_REC × State :=
  let name := env.synthName st.perl_scripts
  let st1 := { st with calls := st.calls ++ [InterpCall.compileAndRun (Source.text data)] }
  match env.compileAndRun st.calls (Source.text data) with
  | Except.error message =>
    (none, { st1 with events := st1.events ++ [Event.ScriptLoadError name message] })
  | Except.ok h =>
    let script : PERL_SCRIPT_REC := { name := name, path := none, data := data, handle := h }
    match register st1.perl_scripts script with
    | none => (none, st1)
    | some reg =>
      (some script, { st1 with perl_scripts := reg,
                               events := st1.events ++ [Event.ScriptLoaded name none] })

/-- Modelled from the spec: `perl_script_load_file` of `perl-core.c`
(`loadFromFile`): derive the name from the file name, invoke the
interpreter on the path; on success unload a prior record of that name
before the new one is registered, and register a record with the path set
and an empty text; on failure register nothing, leave the registry
unchanged and emit a load-error notification. -/
def perl_script_load_file (env : Env) (st : State) (path : CString) :
    Option PERL_SCRIPT_REC × State :=
  let name := env.nameOfPath path
  let st1 := { st with calls := st.calls ++ [InterpCall.compileAndRun (Source.file path)] }
  match env.compileAndRun st.calls (Source.file path) with
  | Except.error message =>
    (none, { st1 with events := st1.events ++ [Event.ScriptLoadError name message] })
  | Except.ok h =>
    let st2 := match find st1.perl_scripts name with
      | some old => perl_script_unload st1 old
      | none => st1
    let script : PERL_SCRIPT_REC := { name := name, path := some path, data := [], handle := h }
    match register st2.perl_scripts script with
    | none => (none, st2)
    | some reg =>
      (some script, { st2 with perl_scripts := reg,
                               events := st2.events ++ [Event.ScriptLoaded name (some path)] })

/-- Modelled from the spec: `perl_script_get_path` of `perl-core.c`, the
path resolver: the user directory is searched first, then the system
directory; the first match is returned, `none` when neither has one. -/
def perl_script_get_path (env : Env) (name : CString) : Option CString :=
  match env.probe env.userDir name with
  | some path => some path
  | none => env.probe env.systemDir name

/-- Modelled from the spec: `perl_scripts_deinit` of `perl-core.c`, the
first half of `flush` (`Registry.clear()`): every active record is unloaded,
in registry order. -/
def perl_scripts_deinit (st : State) : State :=
  st.perl_scripts.foldl perl_script_unload st

/-- Modelled from the spec: `perl_scripts_init` of `perl-core.c`, the second
half of `flush`: the registry is reinitialised in place, reset to empty. The
start-up auto-load of the surrounding environment is an external
collaborator outside the core (start-up wiring is excluded from it) and is
not part of this function. -/
def perl_scripts_init (st : State) : State :=
  { st with perl_scripts := [] }

/-- The functions of `perl-core.c` with the contract above. -/
def core (env : Env) : PerlCore where
  perl_script_load_data := perl_script_load_data env
  perl_script_load_file := perl_script_load_file env
  perl_script_unload := perl_script_unload
  perl_script_find := perl_script_find
  perl_script_get_path := perl_script_get_path env
  perl_scripts_deinit := perl_scripts_deinit
  perl_scripts_init := perl_scripts_init

end Core

/-! ## Sample data -/

/-- An inline script whose text has 60 characters. -/
def sampleLong : PERL_SCRIPT_REC :=
  { name := "data1".toList, path := none, data := List.replicate 60 'x', handle := 1 }

/-- An inline script whose text has 40 characters. -/
def sampleShort : PERL_SCRIPT_REC :=
  { name := "data2".toList, path := none, data := List.replicate 40 'y', handle := 2 }

/-- A script loaded from a file whose path has more than 50 characters. -/
def sampleFile : PERL_SCRIPT_REC :=
  { name := "foo".toList
    path := some "/usr/local/share/irssi/scripts/contributed/autorun/foo.pl".toList
    data := []
    handle := 3 }

/-- A state with an empty registry and empty logs. -/
def emptyState : State :=
  { perl_scripts := [], out := [], events := [], calls := [], scans := [] }

/-- A state whose registry holds the three sample records. -/
def sampleState : State :=
  { emptyState with perl_scripts := [sampleLong, sampleShort, sampleFile] }

/-- A file script of the given name and handle. -/
def fileScript (name : String) (h : Handle) : PERL_SCRIPT_REC :=
  { name := name.toList, path := some ("/scripts/" ++ name ++ ".pl").toList, data := [],
    handle := h }

/-- A state after loading `foo`, `foobar` and `bar`, in that order. -/
def fooState : State :=
  { emptyState with
    perl_scripts := [fileScript "foo" 1, fileScript "foobar" 2, fileScript "bar" 3] }

/-- A host whose parser takes the whole argument as the code, with no
option, and whose directories are empty. -/
def sampleHost : Host :=
  { cmd_get_params := fun data => some ([], data)
    filename_complete := fun _ _ => []
    get_irssi_dir := "/home/user/.irssi".toList
    SCRIPTDIR := "/usr/share/irssi/scripts".toList }

/-- Some completion variables. -/
def sampleCompletion : Completion :=
  { list := [], want_space := true, stopped := false }

/-- An environment whose interpreter loads everything, the handle being the
number of calls made before; the name of an inline script is a run of `d`
one longer than the registry; the name of a file is its last path
component up to the first dot; only `foo` is found, in whichever directory is probed. -/
def sampleEnv : Core.Env :=
  { compileAndRun := fun calls _ => Except.ok calls.length
    synthName := fun reg => List.replicate (reg.length + 1) 'd'
    nameOfPath := fun path =>
      ((path.reverse.takeWhile (fun ch => ch != '/')).reverse).takeWhile (fun ch => ch != '.')
    probe := fun dir name =>
      if name = "foo".toList then some (dir ++ "/foo.pl".toList) else none
    userDir := "/home/user/.irssi/scripts".toList
    systemDir := "/usr/share/irssi/scripts".toList }

/-- The sample environment with an interpreter that rejects everything. -/
def failingEnv : Core.Env :=
  { sampleEnv with compileAndRun := fun _ _ => Except.error "syntax error".toList }

section Lemmas

/-- Printing one message per element of a list appends the mapped list. -/
theorem foldl_printformat (f : PERL_SCRIPT_REC → Msg) (l : List PERL_SCRIPT_REC) (st : State) :
    l.foldl (fun s rec => printformat s (f rec)) st = { st with out := st.out ++ l.map f } := by
  induction l generalizing st with
  | nil => simp
  | cons r l ih =>
    rw [List.foldl_cons, ih]
    simp [printformat]

/-- The state after `cmd_script_list`, in closed form. -/
theorem cmd_script_list_eq (st : State) :
    cmd_script_list st = { st with out := st.out ++
      (if st.perl_scripts = [] then [Msg.TXT_NO_SCRIPTS_LOADED]
       else [Msg.TXT_SCRIPT_LIST_HEADER]
         ++ st.perl_scripts.map (fun r => Msg.TXT_SCRIPT_LIST_LINE r.name (listDescr r))
         ++ [Msg.TXT_SCRIPT_LIST_FOOTER]) } := by
  unfold cmd_script_list
  by_cases h : st.perl_scripts = []
  · simp [h, printformat]
  · simp only [h, if_false, foldl_printformat]
    simp [printformat]

/-- The line printed for the record at index `i` of a registry. -/
theorem cmd_script_list_line (st : State) (i : Nat) (rec : PERL_SCRIPT_REC)
    (hi : st.perl_scripts[i]? = some rec) :
    (cmd_script_list st).out[st.out.length + 1 + i]?
      = some (Msg.TXT_SCRIPT_LIST_LINE rec.name (listDescr rec)) := by
  have hne : st.perl_scripts ≠ [] := by
    intro h
    rw [h] at hi
    simp at hi
  rw [cmd_script_list_eq]
  simp only [hne, if_false]
  have hlt : i < st.perl_scripts.length := by
    rcases Nat.lt_or_ge i st.perl_scripts.length with h | h
    · exact h
    · rw [List.getElem?_eq_none h] at hi
      cases hi
  rw [Nat.add_assoc, List.getElem?_append_right (Nat.le_add_right _ _),
    Nat.add_sub_cancel_left, Nat.add_comm 1 i]
  have hget : st.perl_scripts[i] = rec := by
    rw [List.getElem?_eq_getElem hlt] at hi
    exact Option.some.inj hi
  simp [List.getElem?_append_left, hlt, hget]

end Lemmas

/-! ## The listing -/

section Listing

/-- C1: in `cmd_script_list`, the line printed for a record without a path
shows the record's source text unmodified when it has at most 50
characters, and its first 50 characters followed by `" ..."` otherwise. -/
theorem cmd_script_list_descr_of_data (st : State) (i : Nat) (rec : PERL_SCRIPT_REC)
    (hi : st.perl_scripts[i]? = some rec) (hp : rec.path = none) :
    (cmd_script_list st).out[st.out.length + 1 + i]?
      = some (Msg.TXT_SCRIPT_LIST_LINE rec.name
          (if rec.data.length ≤ 50 then rec.data else rec.data.take 50 ++ " ...".toList)) := by
  rw [cmd_script_list_line st i rec hi]
  have hd : listDescr rec
      = if rec.data.length ≤ 50 then rec.data else rec.data.take 50 ++ " ...".toList := by
    unfold listDescr
    rw [hp]
    by_cases h : rec.data.length ≤ 50
    · simp [h, Nat.not_lt.mpr h]
    · simp [h, Nat.lt_of_not_le h, ellipsis]
  rw [hd]

/-- The theorem of C1 at the 60-character sample record. -/
theorem cmd_script_list_descr_of_data_witness :
    sampleState.perl_scripts[0]? = some sampleLong ∧ sampleLong.path = none ∧
    (cmd_script_list sampleState).out[sampleState.out.length + 1 + 0]?
      = some (Msg.TXT_SCRIPT_LIST_LINE sampleLong.name
          (if sampleLong.data.length ≤ 50 then sampleLong.data
           else sampleLong.data.take 50 ++ " ...".toList)) :=
  ⟨rfl, rfl, cmd_script_list_descr_of_data sampleState 0 sampleLong rfl rfl⟩

/-- A 60-character text is listed as its first 50 characters and the
marker, a 40-character text as it is. -/
theorem cmd_script_list_truncation_example :
    (cmd_script_list sampleState).out[1]?
      = some (Msg.TXT_SCRIPT_LIST_LINE "data1".toList
          (List.replicate 50 'x' ++ [' ', '.', '.', '.'])) ∧
    (cmd_script_list sampleState).out[2]?
      = some (Msg.TXT_SCRIPT_LIST_LINE "data2".toList (List.replicate 40 'y')) := by
  decide

/-- C9: in `cmd_script_list`, the line printed for a record whose path is
set shows the path verbatim, whatever its length and whatever the record's
source text. -/
theorem cmd_script_list_descr_of_path (st : State) (i : Nat) (rec : PERL_SCRIPT_REC)
    (path : CString) (hi : st.perl_scripts[i]? = some rec) (hp : rec.path = some path) :
    (cmd_script_list st).out[st.out.length + 1 + i]?
      = some (Msg.TXT_SCRIPT_LIST_LINE rec.name path) := by
  rw [cmd_script_list_line st i rec hi]
  unfold listDescr
  rw [hp]

/-- The theorem of C9 at the sample record whose path has 57 characters. -/
theorem cmd_script_list_descr_of_path_witness :
    sampleState.perl_scripts[2]? = some sampleFile ∧
    sampleFile.path
      = some "/usr/local/share/irssi/scripts/contributed/autorun/foo.pl".toList ∧
    (cmd_script_list sampleState).out[sampleState.out.length + 1 + 2]?
      = some (Msg.TXT_SCRIPT_LIST_LINE sampleFile.name
          "/usr/local/share/irssi/scripts/contributed/autorun/foo.pl".toList) :=
  ⟨rfl, rfl, cmd_script_list_descr_of_path sampleState 2 sampleFile _ rfl rfl⟩

/-- C8: `cmd_script_list` changes nothing but the messages; on an empty
registry it prints the single message "no scripts loaded"; on a registry of
`n ≥ 1` records it prints `n + 2` messages: the header, one line per record
in registry order with the record's name and its descriptor (the path when
there is one, else the text, cut to 50 characters and followed by `" ..."`
when longer), and the footer. -/
theorem cmd_script_list_messages (st : State) :
    cmd_script_list st = { st with out := st.out ++
      (if st.perl_scripts = [] then [Msg.TXT_NO_SCRIPTS_LOADED]
       else [Msg.TXT_SCRIPT_LIST_HEADER]
         ++ st.perl_scripts.map (fun r => Msg.TXT_SCRIPT_LIST_LINE r.name
              (match r.path with
               | some path => path
               | none =>
                 if r.data.length ≤ 50 then r.data else r.data.take 50 ++ " ...".toList))
         ++ [Msg.TXT_SCRIPT_LIST_FOOTER]) } ∧
    (cmd_script_list st).out.length
      = st.out.length + (if st.perl_scripts = [] then 1 else st.perl_scripts.length + 2) := by
  have hd : ∀ r : PERL_SCRIPT_REC, listDescr r
      = (match r.path with
         | some path => path
         | none =>
           if r.data.length ≤ 50 then r.data else r.data.take 50 ++ " ...".toList) := by
    intro r
    unfold listDescr
    cases r.path with
    | some path => rfl
    | none =>
      by_cases h : r.data.length ≤ 50
      · simp [h, Nat.not_lt.mpr h]
      · simp [h, Nat.lt_of_not_le h, ellipsis]
  have heq := cmd_script_list_eq st
  simp only [hd] at heq
  refine ⟨heq, ?_⟩
  rw [cmd_script_list_eq]
  by_cases h : st.perl_scripts = []
  · simp [h]
  · simp [h]

/-- The listing of the empty registry and of the three sample records. -/
theorem cmd_script_list_example :
    (cmd_script_list emptyState).out = [Msg.TXT_NO_SCRIPTS_LOADED] ∧
    (cmd_script_list sampleState).out.length = 5 ∧
    (cmd_script_list sampleState).out.head? = some Msg.TXT_SCRIPT_LIST_HEADER ∧
    (cmd_script_list sampleState).out.getLast? = some Msg.TXT_SCRIPT_LIST_FOOTER := by
  decide

end Listing

/-! ## Completion -/

section CompletionHandlers

/-- With `foo`, `foobar` and `bar` loaded in that order, the word `fo`
completes to `foo` and `foobar`. -/
theorem script_complete_example :
    (script_complete fooState "fo".toList).1 = ["foo".toList, "foobar".toList] := by
  decide

/-- C6: with a non-empty rest of the line, `sig_complete_unload` and
`sig_complete_load` return at once: the completion list, `want_space` and
the stop flag are as before, and the state, its scan log included, is
unchanged. -/
theorem sig_complete_nonempty_line (host : Host) (st : State) (c : Completion)
    (word line : CString) (hline : line ≠ []) :
    sig_complete_unload st c word line = (c, st) ∧
    sig_complete_load host st c word line = (c, st) := by
  constructor
  · unfold sig_complete_unload
    simp [hline]
  · unfold sig_complete_load
    simp [hline]

/-- The theorem of C6 at the word `fo` followed by the line `x`. -/
theorem sig_complete_nonempty_line_witness :
    ['x'] ≠ ([] : CString) ∧
    sig_complete_unload fooState sampleCompletion "fo".toList ['x']
      = (sampleCompletion, fooState) ∧
    sig_complete_load sampleHost fooState sampleCompletion "fo".toList ['x']
      = (sampleCompletion, fooState) :=
  ⟨by decide,
    sig_complete_nonempty_line sampleHost fooState sampleCompletion "fo".toList ['x']
      (by decide)⟩

end CompletionHandlers

/-! ## Lemmas on the registry contract -/

section CoreLemmas

/-- A lookup fails when no record has the name. -/
theorem Core.find_eq_none_of_forall (reg : List PERL_SCRIPT_REC) (name : CString)
    (h : ∀ r ∈ reg, r.name ≠ name) : Core.find reg name = none := by
  unfold Core.find
  rw [List.find?_eq_none]
  intro r hr
  simpa using h r hr

/-- A failed lookup means no record has the name. -/
theorem Core.forall_of_find_eq_none (reg : List PERL_SCRIPT_REC) (name : CString)
    (h : Core.find reg name = none) : ∀ r ∈ reg, r.name ≠ name := by
  unfold Core.find at h
  rw [List.find?_eq_none] at h
  intro r hr
  simpa using h r hr

/-- A lookup returns the first record of the name. -/
theorem Core.find_append_cons (l1 l2 : List PERL_SCRIPT_REC) (script : PERL_SCRIPT_REC)
    (h : ∀ r ∈ l1, r.name ≠ script.name) :
    Core.find (l1 ++ script :: l2) script.name = some script := by
  unfold Core.find
  induction l1 with
  | nil => simp
  | cons r l1 ih =>
    have hr : r.name ≠ script.name := h r (List.mem_cons_self _ _)
    have ht : ∀ x ∈ l1, x.name ≠ script.name := fun x hx => h x (List.mem_cons_of_mem _ hx)
    simp [List.find?_cons, hr, ih ht]

/-- Unregistering removes the first record of the name. -/
theorem Core.unregister_append_cons (l1 l2 : List PERL_SCRIPT_REC) (script : PERL_SCRIPT_REC)
    (h : ∀ r ∈ l1, r.name ≠ script.name) :
    Core.unregister (l1 ++ script :: l2) script.name = l1 ++ l2 := by
  unfold Core.unregister
  induction l1 with
  | nil => simp
  | cons r l1 ih =>
    have hr : r.name ≠ script.name := h r (List.mem_cons_self _ _)
    have ht : ∀ x ∈ l1, x.name ≠ script.name := fun x hx => h x (List.mem_cons_of_mem _ hx)
    simp [hr, ih ht]

end CoreLemmas

/-! ## The commands -/

section Commands

/-- C7: `cmd_script_exec` with empty code reports
`CMDERR_NOT_ENOUGH_PARAMS` and returns: whatever the functions of
`perl-core.c` do, the state is the one before the call with that one error
event added, so the registry, the messages and the interpreter calls are as
before. -/
theorem cmd_script_exec_empty_code (host : Host) (core : PerlCore) (st : State)
    (data : CString) (optlist : List (CString × CString))
    (hparse : host.cmd_get_params data = some (optlist, [])) :
    cmd_script_exec host core st data
      = { st with events := st.events ++
            [Event.CommandError CmdError.CMDERR_NOT_ENOUGH_PARAMS] } ∧
    (cmd_script_exec host core st data).perl_scripts = st.perl_scripts ∧
    (cmd_script_exec host core st data).calls = st.calls ∧
    (cmd_script_exec host core st data).out = st.out := by
  have h : cmd_script_exec host core st data
      = { st with events := st.events ++
            [Event.CommandError CmdError.CMDERR_NOT_ENOUGH_PARAMS] } := by
    unfold cmd_script_exec
    rw [hparse]
    simp [cmd_param_error]
  rw [h]
  exact ⟨rfl, rfl, rfl, rfl⟩

/-- The theorem of C7 at the empty argument, with three scripts loaded. -/
theorem cmd_script_exec_empty_code_witness :
    sampleHost.cmd_get_params [] = some ([], []) ∧
    cmd_script_exec sampleHost (Core.core sampleEnv) fooState []
      = { fooState with events := fooState.events ++
            [Event.CommandError CmdError.CMDERR_NOT_ENOUGH_PARAMS] } :=
  ⟨rfl, (cmd_script_exec_empty_code sampleHost (Core.core sampleEnv) fooState [] [] rfl).1⟩

/-- C3: `cmd_script_exec` with non-empty code and without the `permanent`
option leaves the registry as it was, hence of the same size: when the
interpreter loads the code the script just registered is unloaded at once
(one compile call, then the release of its handle), and when the
interpreter fails nothing is registered (one compile call, a load-error
event). -/
theorem cmd_script_exec_transient (host : Host) (env : Core.Env) (st : State)
    (data code : CString) (optlist : List (CString × CString))
    (hparse : host.cmd_get_params data = some (optlist, code))
    (hcode : code ≠ [])
    (hperm : optlist.lookup "permanent".toList = none) :
    (cmd_script_exec host (Core.core env) st data).perl_scripts.length
      = st.perl_scripts.length ∧
    (cmd_script_exec host (Core.core env) st data).perl_scripts = st.perl_scripts ∧
    (∀ h, env.compileAndRun st.calls (Source.text code) = Except.ok h →
      Core.find st.perl_scripts (env.synthName st.perl_scripts) = none →
      (cmd_script_exec host (Core.core env) st data).calls
        = st.calls ++ [InterpCall.compileAndRun (Source.text code), InterpCall.release h] ∧
      (cmd_script_exec host (Core.core env) st data).events
        = st.events ++ [Event.ScriptLoaded (env.synthName st.perl_scripts) none,
            Event.ScriptUnloaded (env.synthName st.perl_scripts)]) ∧
    (∀ message, env.compileAndRun st.calls (Source.text code) = Except.error message →
      (cmd_script_exec host (Core.core env) st data).calls
        = st.calls ++ [InterpCall.compileAndRun (Source.text code)] ∧
      (cmd_script_exec host (Core.core env) st data).events
        = st.events ++ [Event.ScriptLoadError (env.synthName st.perl_scripts) message]) := by
  have hperm2 : List.lookup optPermanent optlist = none := hperm
  have hreg : (cmd_script_exec host (Core.core env) st data).perl_scripts
      = st.perl_scripts := by
    unfold cmd_script_exec
    rw [hparse]
    simp only [hcode, if_false, Core.core, Core.perl_script_load_data, hperm2, if_true]
    cases hc : env.compileAndRun st.calls (Source.text code) with
    | error message => simp
    | ok h =>
      simp only [Core.register]
      cases hf : Core.find st.perl_scripts (env.synthName st.perl_scripts) with
      | some old => simp
      | none =>
        have hno := Core.forall_of_find_eq_none _ _ hf
        have := Core.unregister_append_cons st.perl_scripts []
          { name := env.synthName st.perl_scripts, path := none, data := code, handle := h } hno
        simpa [Core.perl_script_unload] using this
  refine ⟨by rw [hreg], hreg, ?_, ?_⟩
  · intro h hc hf
    unfold cmd_script_exec
    rw [hparse]
    simp [hcode, Core.core, Core.perl_script_load_data, hperm2, hc, Core.register, hf,
      Core.perl_script_unload]
  · intro message hc
    unfold cmd_script_exec
    rw [hparse]
    simp [hcode, Core.core, Core.perl_script_load_data, hc]

/-- The theorem of C3 at `script exec hello` with three scripts loaded. -/
theorem cmd_script_exec_transient_witness :
    sampleHost.cmd_get_params "hello".toList = some ([], "hello".toList) ∧
    "hello".toList ≠ [] ∧
    ([] : List (CString × CString)).lookup "permanent".toList = none ∧
    (cmd_script_exec sampleHost (Core.core sampleEnv) fooState "hello".toList).perl_scripts.length
      = fooState.perl_scripts.length :=
  ⟨rfl, by decide, rfl,
    (cmd_script_exec_transient sampleHost sampleEnv fooState "hello".toList "hello".toList []
      rfl (by decide) rfl).1⟩

/-- C4: `cmd_script_unload` on a name that no record has prints
`TXT_SCRIPT_NOT_LOADED` with that name and changes nothing else; on a name
that the registry has it prints `TXT_SCRIPT_UNLOADED` with the record's
name, releases the record's handle, removes that record and no other, and
emits the unload notification. -/
theorem cmd_script_unload_cases (env : Core.Env) (st : State) (data : CString) :
    ((∀ r ∈ st.perl_scripts, r.name ≠ data) →
      cmd_script_unload (Core.core env) st data
        = { st with out := st.out ++ [Msg.TXT_SCRIPT_NOT_LOADED data] }) ∧
    (∀ (l1 l2 : List PERL_SCRIPT_REC) (script : PERL_SCRIPT_REC),
      st.perl_scripts = l1 ++ script :: l2 → (∀ r ∈ l1, r.name ≠ data) →
      script.name = data →
      cmd_script_unload (Core.core env) st data
        = { st with
            out := st.out ++ [Msg.TXT_SCRIPT_UNLOADED script.name],
            perl_scripts := l1 ++ l2,
            calls := st.calls ++ [InterpCall.release script.handle],
            events := st.events ++ [Event.ScriptUnloaded script.name] }) := by
  constructor
  · intro h
    unfold cmd_script_unload
    simp [Core.core, Core.perl_script_find, Core.find_eq_none_of_forall _ _ h, printformat]
  · intro l1 l2 script hreg hl1 hname
    subst hname
    unfold cmd_script_unload
    simp [Core.core, Core.perl_script_find, hreg, Core.find_append_cons l1 l2 script hl1,
      Core.perl_script_unload, printformat, Core.unregister_append_cons l1 l2 script hl1]

/-- The theorem of C4 at the names `fo` (not loaded) and `foobar` (loaded
second of three). -/
theorem cmd_script_unload_cases_witness :
    (∀ r ∈ fooState.perl_scripts, r.name ≠ "fo".toList) ∧
    cmd_script_unload (Core.core sampleEnv) fooState "fo".toList
      = { fooState with out := fooState.out ++ [Msg.TXT_SCRIPT_NOT_LOADED "fo".toList] } ∧
    cmd_script_unload (Core.core sampleEnv) fooState "foobar".toList
      = { fooState with
          out := fooState.out ++ [Msg.TXT_SCRIPT_UNLOADED "foobar".toList],
          perl_scripts := [fileScript "foo" 1] ++ [fileScript "bar" 3],
          calls := fooState.calls ++ [InterpCall.release 2],
          events := fooState.events ++ [Event.ScriptUnloaded "foobar".toList] } :=
  ⟨by decide,
    (cmd_script_unload_cases sampleEnv fooState "fo".toList).1 (by decide),
    (cmd_script_unload_cases sampleEnv fooState "foobar".toList).2
      [fileScript "foo" 1] [fileScript "bar" 3] (fileScript "foobar" 2) rfl (by decide) rfl⟩

/-- The flush of three scripts with handles 1, 2, 3 and of two scripts that
hold the same handle. -/
theorem cmd_script_flush_example :
    (cmd_script_flush (Core.core sampleEnv) fooState).perl_scripts = [] ∧
    (cmd_script_flush (Core.core sampleEnv) fooState).calls
      = [InterpCall.release 1, InterpCall.release 2, InterpCall.release 3] ∧
    (cmd_script_flush (Core.core sampleEnv)
        { emptyState with perl_scripts := [fileScript "a" 7, fileScript "b" 7] }).calls
      = [InterpCall.release 7, InterpCall.release 7] := by
  decide

/-- C10, counterexample: the argument `foo` resolves to a file, the
interpreter rejects the file, and `cmd_script_load` prints nothing: no
message with the script's name and path. -/
theorem cmd_script_load_silent_on_failure :
    (Core.core failingEnv).perl_script_get_path "foo".toList
      = some "/home/user/.irssi/scripts/foo.pl".toList ∧
    (cmd_script_load (Core.core failingEnv) emptyState "foo".toList).out = [] ∧
    (cmd_script_load (Core.core failingEnv) emptyState "foo".toList).perl_scripts = [] := by
  decide

/-- C10, amended: when `perl_script_get_path` finds nothing,
`cmd_script_load` prints `TXT_SCRIPT_NOT_FOUND` with the argument, calls no
loader and changes nothing else; when a path is found and
`perl_script_load_file` returns a script, it prints `TXT_SCRIPT_LOADED`
with that script's name and path; when a path is found and the loader
returns no script, the command prints nothing. -/
theorem cmd_script_load_cases (core : PerlCore) (st : State) (data : CString) :
    (core.perl_script_get_path data = none →
      cmd_script_load core st data
        = { st with out := st.out ++ [Msg.TXT_SCRIPT_NOT_FOUND data] }) ∧
    (∀ (fname : CString) (script : PERL_SCRIPT_REC) (st1 : State),
      core.perl_script_get_path data = some fname →
      core.perl_script_load_file st fname = (some script, st1) →
      cmd_script_load core st data
        = { st1 with out := st1.out ++ [Msg.TXT_SCRIPT_LOADED script.name script.path] }) ∧
    (∀ (fname : CString) (st1 : State),
      core.perl_script_get_path data = some fname →
      core.perl_script_load_file st fname = (none, st1) →
      cmd_script_load core st data = st1) := by
  refine ⟨?_, ?_, ?_⟩
  · intro h
    unfold cmd_script_load
    simp [h, printformat]
  · intro fname script st1 hp hl
    unfold cmd_script_load
    simp [hp, hl, printformat]
  · intro fname st1 hp hl
    unfold cmd_script_load
    simp [hp, hl]

/-- The theorem of C10, amended, at an argument that is not found, at one
that loads, and at one that the interpreter rejects. -/
theorem cmd_script_load_cases_witness :
    (Core.core sampleEnv).perl_script_get_path "nope".toList = none ∧
    cmd_script_load (Core.core sampleEnv) fooState "nope".toList
      = { fooState with out := fooState.out ++ [Msg.TXT_SCRIPT_NOT_FOUND "nope".toList] } ∧
    (cmd_script_load (Core.core sampleEnv) emptyState "foo".toList).out
      = [Msg.TXT_SCRIPT_LOADED "foo".toList (some "/home/user/.irssi/scripts/foo.pl".toList)] ∧
    cmd_script_load (Core.core failingEnv) emptyState "foo".toList
      = (Core.perl_script_load_file failingEnv emptyState
          "/home/user/.irssi/scripts/foo.pl".toList).2 :=
  ⟨by decide,
    (cmd_script_load_cases (Core.core sampleEnv) fooState "nope".toList).1 (by decide),
    congrArg State.out
      ((cmd_script_load_cases (Core.core sampleEnv) emptyState "foo".toList).2.1
        "/home/user/.irssi/scripts/foo.pl".toList
        { name := "foo".toList, path := some "/home/user/.irssi/scripts/foo.pl".toList,
          data := [], handle := 0 }
        (Core.perl_script_load_file sampleEnv emptyState
          "/home/user/.irssi/scripts/foo.pl".toList).2
        (by decide) (by decide)),
    (cmd_script_load_cases (Core.core failingEnv) emptyState "foo".toList).2.2
      "/home/user/.irssi/scripts/foo.pl".toList
      (Core.perl_script_load_file failingEnv emptyState
        "/home/user/.irssi/scripts/foo.pl".toList).2
      (by decide) (by decide)⟩

end Commands

end PerlFe
